import Mathlib

/-!
Employee service: record store and request handlers.

A shallow embedding of `empdb/empdb.go` (the record store over one SQLite
table) and `api/rest/employee/employee.go` (the HTTP handlers wrapping it).

Modelling conventions.

* The table `employees(id INTEGER PRIMARY KEY, name TEXT, position TEXT,
  salary NUMERIC, date_created INTEGER)` is a list of typed rows.  The SQL
  statements issued by the Go code are interpreted on that list with SQLite's
  semantics (`WHERE id = ?` is a filter, `ORDER BY id ASC` a sort, a negative
  `LIMIT` means no limit, a negative `OFFSET` means zero, a fresh rowid is the
  largest rowid plus one).
* Go `int` and `int64` are 64-bit two's complement; arithmetic done by the Go
  code wraps (`wrapInt`).
* A `float64` is NaN, an infinity or a finite number given by its exact
  rational value.  SQLite stores a bound NaN as NULL, so the salary column is
  nullable; the other columns only ever receive non-NULL text and integers.
* A `time.Time` is the pair of its Unix seconds and its nanosecond part; the
  location is not represented.
* Every `db.Exec` / `db.Query` may be failed by the environment: the handle
  carries the list of outcomes of the coming driver calls (`faults`).  It also
  records the statements issued on it (`log`).
* A Go panic is an explicit outcome.
-/

namespace EmployeeService

/-! ## Go values -/

/-- Wrap an integer into the 64-bit two's complement range, as Go arithmetic on `int` does. -/
def wrapInt (x : Int) : Int := (x + 2 ^ 63) % 2 ^ 64 - 2 ^ 63

/-- Instant of a Go `time.Time`: seconds since the Unix epoch and nanoseconds within the second. -/
structure Time where
  sec : Int
  nsec : Nat
  deriving DecidableEq, Repr

/-- Method `t.Unix()`: the whole seconds since the epoch. -/
def Time.Unix (t : Time) : Int := t.sec

/-- Function `time.Unix(sec, 0)`. -/
def timeUnix (sec : Int) : Time := { sec := sec, nsec := 0 }

/-- The Go zero time `time.Time{}` (January 1, year 1, UTC). -/
def zeroTime : Time := { sec := -62135596800, nsec := 0 }

/-- Method `t.After(u)`. -/
def Time.After (t u : Time) : Bool :=
  decide (u.sec < t.sec) || (decide (u.sec = t.sec) && decide (u.nsec < t.nsec))

/-- A `float64` that is a number: finite, by its exact rational value, or an infinity. -/
inductive Number where
  | fin (q : Rat)
  | inf (negative : Bool)
  deriving DecidableEq, Repr

/-- A Go `float64`: NaN or a number. -/
inductive Float64 where
  | nan
  | num (x : Number)
  deriving DecidableEq, Repr

/-- Struct `empdb.Employee`; `DateCreated` is a nullable pointer. -/
structure Employee where
  Id : Int
  Name : String
  Position : String
  Salary : Float64
  DateCreated : Option Time
  deriving DecidableEq, Repr

/-- The zero value `empdb.Employee{}`. -/
def Employee.zero : Employee :=
  { Id := 0, Name := "", Position := "", Salary := .num (.fin 0), DateCreated := none }

/-- Struct `empdb.PaginationParams`. -/
structure PaginationParams where
  Page : Int
  Count : Int
  deriving DecidableEq, Repr

/-- A Go `error` value: its `Error()` text and what `json.Marshal` yields on it
(`none` when marshalling the value fails). -/
structure GoError where
  msg : String
  marshalled : Option String
  deriving DecidableEq, Repr

/-- Outcome of running Go code: a normal return or a panic. -/
inductive Outcome (α : Type) where
  | ret (a : α)
  | panic (msg : String)
  deriving DecidableEq, Repr

/-! ## The table and the statements issued on it -/

/-- One row of table `employees`; `salary` is `none` when the column holds NULL. -/
structure Row where
  id : Int
  name : String
  position : String
  salary : Option Number
  date_created : Int
  deriving DecidableEq, Repr

/-- The five SQL statements of `empdb.go` with their bound arguments. -/
inductive Stmt where
  | insert (name position : String) (salary : Float64)
  | selectById (id : Int)
  | update (name position : String) (salary : Float64) (date_created id : Int)
  | delete (id : Int)
  | selectBatch (limit offset : Int)
  deriving DecidableEq, Repr

/-- The handle `*sql.DB`: the table, the outcomes the environment gives to the
coming driver calls (`some e` fails the call with `e`), the values the engine's
random rowid generator will produce, and the statements issued so far. -/
structure DB where
  rows : List Row
  faults : List (Option GoError)
  rng : List Int
  log : List Stmt
  deriving DecidableEq, Repr

/-- The fault, if any, that the environment gives to the next driver call. -/
def DB.nextFault (db : DB) : Option GoError :=
  match db.faults with
  | [] => none
  | f :: _ => f

/-- Largest rowid of SQLite, `2^63 - 1`. -/
def maxRowid : Int := 2 ^ 63 - 1

/-- The rows in `ORDER BY id ASC` order. -/
def orderById (rows : List Row) : List Row :=
  rows.insertionSort (fun a b => a.id ≤ b.id)

/-- The largest id of the table, `none` when it is empty. -/
def lastRowid : List Row → Option Int
  | [] => none
  | r :: rs =>
    match lastRowid rs with
    | none => some r.id
    | some m => some (max r.id m)

/-- SQLite's search for a random unused rowid: at most `tries` draws, each
reduced to `1 .. 2^62`; returns the rowid found, if any, and the rest of the
generator's values. -/
def randomRowid (rows : List Row) : Nat → List Int → Option Int × List Int
  | 0, rng => (none, rng)
  | _ + 1, [] => (none, [])
  | n + 1, v :: rng =>
    let c := v % 2 ^ 62 + 1
    if rows.all (fun r => r.id != c) then (some c, rng) else randomRowid rows n rng

/-- Rowid chosen by SQLite for a row inserted without an explicit id into a table
declared `id INTEGER PRIMARY KEY` (no AUTOINCREMENT): 1 for an empty table, the
largest id plus one otherwise, a random unused id when the largest id is `2^63-1`. -/
def newRowid (rows : List Row) (rng : List Int) : Option Int × List Int :=
  match lastRowid rows with
  | none => (some 1, rng)
  | some m => if m < maxRowid then (some (m + 1), rng) else randomRowid rows 100 rng

/-- Status `SQLITE_FULL`, raised when no unused rowid is found. -/
def errFull : GoError :=
  { msg := "database or disk is full",
    marshalled := some "\x7b\"Code\":13,\"ExtendedCode\":13,\"SystemErrno\":0\x7d" }

/-- Value stored for a bound `float64`: SQLite turns NaN into NULL. -/
def bindFloat64 : Float64 → Option Number
  | .nan => none
  | .num x => some x

/-- Rows produced by a `SELECT` of `empdb.go`. -/
def evalSelect (rows : List Row) : Stmt → List Row
  | .selectById id => rows.filter (fun r => r.id == id)
  | .selectBatch limit offset =>
    let s := (orderById rows).drop offset.toNat
    if limit < 0 then s else s.take limit.toNat
  | _ => []

/-- Effect of a data-changing statement of `empdb.go` on the table: the
statement's result (the last inserted rowid, meaningful for the insert only),
the new table and the rest of the random generator. -/
def evalExec (rows : List Row) (rng : List Int) : Stmt → Except GoError Int × List Row × List Int
  | .insert name position salary =>
    match newRowid rows rng with
    | (none, rng1) => (.error errFull, rows, rng1)
    | (some i, rng1) =>
      (.ok i, rows ++ [{ id := i, name := name, position := position,
                         salary := bindFloat64 salary, date_created := 0 }], rng1)
  | .update name position salary date_created id =>
    (.ok 0, rows.map (fun r => if r.id == id then
            { r with name := name, position := position, salary := bindFloat64 salary,
                     date_created := date_created } else r), rng)
  | .delete id => (.ok 0, rows.filter (fun r => r.id != id), rng)
  | _ => (.ok 0, rows, rng)

/-- Call `db.Query(stmt)`: logged, failed by the environment or answered from the table. -/
def DB.Query (db : DB) (s : Stmt) : Except GoError (List Row) × DB :=
  match db.nextFault with
  | some e => (.error e, { db with faults := db.faults.tail, log := db.log ++ [s] })
  | none => (.ok (evalSelect db.rows s), { db with faults := db.faults.tail, log := db.log ++ [s] })

/-- Call `db.Exec(stmt)`: logged, failed by the environment or applied to the table. -/
def DB.Exec (db : DB) (s : Stmt) : Except GoError Int × DB :=
  match db.nextFault with
  | some e => (.error e, { db with faults := db.faults.tail, log := db.log ++ [s] })
  | none =>
    match evalExec db.rows db.rng s with
    | (res, rows, rng) =>
      (res, { rows := rows, rng := rng, faults := db.faults.tail, log := db.log ++ [s] })

/-! ## The record store, `empdb/empdb.go` -/

/-- The error of `row.Scan` on a NULL salary. -/
def errScanSalary : GoError :=
  { msg := "sql: Scan error on column index 3, name \"salary\": converting NULL to float64 is unsupported",
    marshalled := some "\x7b\x7d" }

/-- Function `employeeFromRows`: scan the five columns in order, returning the
scan error when the salary is NULL, and decode the timestamp with
`time.Unix(dateCreated, 0)`. -/
def employeeFromRows (row : Row) : Option Employee × Option GoError :=
  match row.salary with
  | none => (none, some errScanSalary)
  | some salary =>
    let t := timeUnix row.date_created
    (some { Id := row.id, Name := row.name, Position := row.position, Salary := .num salary,
            DateCreated := some t }, none)

/-- Function `CreateEmmployee`: insert name, position and salary with
`date_created` 0 and return the last inserted id. -/
def CreateEmmployee (db : DB) (emp : Employee) : (Int × Option GoError) × DB :=
  match db.Exec (.insert emp.Name emp.Position emp.Salary) with
  | (.error err, db1) => ((0, some err), db1)
  | (.ok empId, db1) => ((empId, none), db1)

/-- Function `GetEmployee`: the first row selected by id, or `nil, nil`. -/
def GetEmployee (db : DB) (id : Int) : (Option Employee × Option GoError) × DB :=
  match db.Query (.selectById id) with
  | (.error err, db1) => ((none, some err), db1)
  | (.ok rows, db1) =>
    match rows with
    | row :: _ => (employeeFromRows row, db1)
    | [] => ((none, none), db1)

/-- Function `UpdateEmployee`: dereferences `emp.DateCreated` first, then
overwrites the four columns of the rows with the given id. -/
def UpdateEmployee (db : DB) (emp : Employee) : Outcome (Option GoError) × DB :=
  match emp.DateCreated with
  | none => (.panic "runtime error: invalid memory address or nil pointer dereference", db)
  | some dateCreated =>
    let t := dateCreated.Unix
    match db.Exec (.update emp.Name emp.Position emp.Salary t emp.Id) with
    | (.error err, db1) => (.ret (some err), db1)
    | (.ok _, db1) => (.ret none, db1)

/-- Function `DeleteEmployee`. -/
def DeleteEmployee (db : DB) (id : Int) : Option GoError × DB :=
  match db.Exec (.delete id) with
  | (.error err, db1) => (some err, db1)
  | (.ok _, db1) => (none, db1)

/-- What the Go runtime and libraries contribute: the largest capacity for
which `make([]Employee, 0, n)` succeeds, and which timestamps
`time.Time.MarshalJSON` accepts (year within 0..9999). -/
structure Env where
  maxSliceCap : Nat
  timeMarshals : Time → Bool

/-- The rows loop of `GetEmployeesBatch`: decode each row, stop at the first error. -/
def scanAll : List Row → List Employee → Option (List Employee) × Option GoError
  | [], emps => (some emps, none)
  | row :: rows, emps =>
    match employeeFromRows row with
    | (some emp, none) => scanAll rows (emps ++ [emp])
    | (_, some err) => (none, some err)
    | (none, none) => (none, none)

/-- Function `GetEmployeesBatch`: `LIMIT Count OFFSET (Page-1)*Count` over the
rows ordered by id; the result slice is allocated with capacity `Count` after
the query has run. -/
def GetEmployeesBatch (env : Env) (db : DB) (params : PaginationParams) :
    Outcome (Option (List Employee) × Option GoError) × DB :=
  match db.Query (.selectBatch params.Count (wrapInt (wrapInt (params.Page - 1) * params.Count))) with
  | (.error err, db1) => (.ret (none, some err), db1)
  | (.ok rows, db1) =>
    if params.Count < 0 ∨ (env.maxSliceCap : Int) < params.Count then
      (.panic "runtime error: makeslice: cap out of range", db1)
    else
      (.ret (scanAll rows []), db1)

/-! ## The request handlers, `api/rest/employee/employee.go` -/

/-- JSON texts written to or read from a response body, by what they encode. -/
inductive Json where
  | null
  | employee (e : Employee)
  | array (es : List Employee)
  | errObj (Err : String)
  | raw (text : String)
  deriving DecidableEq, Repr

/-- A value of type `interface{}` handed to `json.Marshal` by the handlers. -/
inductive Data where
  | nil
  | employee (e : Option Employee)
  | employees (es : Option (List Employee))
  | errorMessage (Err : String)
  deriving DecidableEq, Repr

/-- Whether `json.Marshal` can encode a `float64`: NaN and the infinities are unsupported values. -/
def Float64.marshals : Float64 → Bool
  | .num (.fin _) => true
  | _ => false

/-- Whether `json.Marshal` can encode an employee: its salary and its timestamp. -/
def Employee.marshals (env : Env) (e : Employee) : Bool :=
  e.Salary.marshals &&
  match e.DateCreated with
  | none => true
  | some t => env.timeMarshals t

/-- Function `json.Marshal` on the data the handlers produce: nil pointers,
nil slices and nil interfaces encode as `null`; encoding fails when a timestamp
is rejected by `time.Time.MarshalJSON`. -/
def jsonMarshal (env : Env) : Data → Option Json
  | .nil => some .null
  | .employee none => some .null
  | .employee (some e) => if e.marshals env then some (.employee e) else none
  | .employees none => some .null
  | .employees (some es) => if es.all (fun e => e.marshals env) then some (.array es) else none
  | .errorMessage m => some (.errObj m)

/-- Function `json.Unmarshal` of a response body into an `Employee` variable:
`null` leaves the variable as it is, an employee object sets its five fields,
an object without employee fields sets nothing, anything else is a decode
error that leaves the variable as it is. -/
def jsonUnmarshalEmployee (body : Json) (target : Employee) : Employee :=
  match body with
  | .employee e => e
  | _ => target

/-- State of an `http.ResponseWriter`: the content type header, the status
line once written, and the bodies written. -/
structure ResponseWriter where
  contentType : Option String
  status : Option Nat
  body : List Json
  deriving DecidableEq, Repr

/-- A writer on which nothing has been set or written. -/
def ResponseWriter.fresh : ResponseWriter := { contentType := none, status := none, body := [] }

/-- Method `w.WriteHeader(code)`: only the first call takes effect. -/
def ResponseWriter.WriteHeader (w : ResponseWriter) (code : Nat) : ResponseWriter :=
  match w.status with
  | some _ => w
  | none => { w with status := some code }

/-- Method `w.Write(b)`: writes the status 200 first when none was written. -/
def ResponseWriter.Write (w : ResponseWriter) (b : Json) : ResponseWriter :=
  let w1 := w.WriteHeader 200
  { w1 with body := w1.body ++ [b] }

/-- Status code the client receives: 200 when the handler wrote none. -/
def ResponseWriter.code (w : ResponseWriter) : Nat := w.status.getD 200

/-- Function `setHeader`: takes effect only before the status line is written. -/
def setHeader (w : ResponseWriter) : ResponseWriter :=
  match w.status with
  | some _ => w
  | none => { w with contentType := some "application/json; charset=utf-8" }

/-- What `fromBody` finds in a request body for each field of its target:
`none` for a field the body omits or cannot be decoded into. -/
structure Body where
  id : Option Int
  name : Option String
  position : Option String
  salary : Option Rat
  date_created : Option Time
  page : Option Int
  count : Option Int
  deriving DecidableEq, Repr

/-- An `http.Request`: method and body. -/
structure Request where
  Method : String
  Body : Body
  deriving DecidableEq, Repr

/-- Function `fromBody` with an `*empdb.Employee` target. -/
def fromBodyEmployee (body : Body) (target : Employee) : Employee :=
  { Id := body.id.getD target.Id,
    Name := body.name.getD target.Name,
    Position := body.position.getD target.Position,
    Salary := match body.salary with
      | some q => .num (.fin q)
      | none => target.Salary,
    DateCreated := match body.date_created with
      | some t => some t
      | none => target.DateCreated }

/-- Function `fromBody` with an `*empdb.PaginationParams` target. -/
def fromBodyPagination (body : Body) (target : PaginationParams) : PaginationParams :=
  { Page := body.page.getD target.Page, Count := body.count.getD target.Count }

/-- Result of a handler or of a callback: its outcome, the writer and the store. -/
abbrev Handled (α : Type) := Outcome α × ResponseWriter × DB

/-- Function `returnEmployee`: run the callback; an error from it is answered
with status 500 and the marshalled error value, a result with its JSON
encoding, an encoding failure with status 500 and no body. -/
def returnEmployee (env : Env) (w : ResponseWriter) (db : DB)
    (withData : ResponseWriter → DB → Handled (Data × Option GoError)) : Handled Unit :=
  let w := setHeader w
  match withData w db with
  | (.panic m, w, db) => (.panic m, w, db)
  | (.ret (data, serverErr), w, db) =>
    match serverErr with
    | some serverErr =>
      let w := w.WriteHeader 500
      match serverErr.marshalled with
      | none => (.ret (), w, db)
      | some serverErrEmployee => (.ret (), w.Write (.raw serverErrEmployee), db)
    | none =>
      match jsonMarshal env data with
      | none => (.ret (), w.WriteHeader 500, db)
      | some dataEmployee => (.ret (), w.Write dataEmployee, db)

/-- Function `returnErr`: answer with the given status and the payload
holding the error text under key `Err`. -/
def returnErr (env : Env) (w : ResponseWriter) (db : DB) (err : GoError) (code : Nat) :
    Handled Unit :=
  returnEmployee env w db (fun w db =>
    let errorMessage := Data.errorMessage err.msg
    let w := w.WriteHeader code
    (.ret (errorMessage, none), w, db))

/-- The callback `return empdb.GetEmployee(db, id)` shared by three handlers. -/
def getEmployeeData (id : Int) (w : ResponseWriter) (db : DB) : Handled (Data × Option GoError) :=
  match GetEmployee db id with
  | ((emp, err), db1) => (.ret (.employee emp, err), w, db1)

namespace Handler

/-- Handler `CreateEmployee`. -/
def CreateEmployee (env : Env) (db : DB) (w : ResponseWriter) (req : Request) : Handled Unit :=
  if req.Method != "POST" then (.ret (), w, db) else
  let employee := fromBodyEmployee req.Body Employee.zero
  match CreateEmmployee db employee with
  | ((_, some err), db1) => returnErr env w db1 err 400
  | ((empId, none), db1) => returnEmployee env w db1 (getEmployeeData empId)

/-- Handler `GetEmployee`. -/
def GetEmployee (env : Env) (db : DB) (w : ResponseWriter) (req : Request) : Handled Unit :=
  if req.Method != "GET" then (.ret (), w, db) else
  let employee := fromBodyEmployee req.Body Employee.zero
  returnEmployee env w db (getEmployeeData employee.Id)

/-- The text of the validation error of handler `GetEmployeesBatch`. -/
def errPagination : GoError :=
  { msg := "page and count fields are required and must be > 0", marshalled := some "\x7b\x7d" }

/-- Handler `GetEmployeesBatch`. -/
def GetEmployeesBatch (env : Env) (db : DB) (w : ResponseWriter) (req : Request) : Handled Unit :=
  if req.Method != "GET" then (.ret (), w, db) else
  let queryOptions := fromBodyPagination req.Body { Page := 0, Count := 0 }
  if queryOptions.Count ≤ 0 ∨ queryOptions.Page ≤ 0 then
    returnErr env w db errPagination 400
  else
    returnEmployee env w db (fun w db =>
      match EmployeeService.GetEmployeesBatch env db queryOptions with
      | (.panic m, db1) => (.panic m, w, db1)
      | (.ret (emps, err), db1) => (.ret (.employees emps, err), w, db1))

/-- Handler `UpdateEmployee`. -/
def UpdateEmployee (env : Env) (db : DB) (w : ResponseWriter) (req : Request) : Handled Unit :=
  if req.Method != "PUT" then (.ret (), w, db) else
  let employee := fromBodyEmployee req.Body Employee.zero
  match EmployeeService.UpdateEmployee db employee with
  | (.panic m, db1) => (.panic m, w, db1)
  | (.ret (some err), db1) => returnErr env w db1 err 400
  | (.ret none, db1) => returnEmployee env w db1 (getEmployeeData employee.Id)

/-- Handler `DeleteEmployee`. -/
def DeleteEmployee (env : Env) (db : DB) (w : ResponseWriter) (req : Request) : Handled Unit :=
  if req.Method != "DELETE" then (.ret (), w, db) else
  let employee := fromBodyEmployee req.Body Employee.zero
  match EmployeeService.DeleteEmployee db employee.Id with
  | (some err, db1) => returnErr env w db1 err 400
  | (none, db1) => returnEmployee env w db1 (fun w db => (.ret (.nil, none), w, db))

end Handler

/-! ## Vocabulary of the statements -/

/-- The primary-key constraint: no two rows share an id. -/
def uniqueIds (rows : List Row) : Prop := (rows.map (fun r => r.id)).Nodup

instance (rows : List Row) : Decidable (uniqueIds rows) :=
  inferInstanceAs (Decidable ((rows.map (fun r : Row => r.id)).Nodup))

/-- The record a row decodes to; a NULL salary, which `Scan` rejects, is shown as NaN. -/
def rowEmployee (row : Row) : Employee :=
  { Id := row.id, Name := row.name, Position := row.position,
    Salary := match row.salary with
      | some x => .num x
      | none => .nan,
    DateCreated := some (timeUnix row.date_created) }

/-- One store operation of a client. -/
inductive Op where
  | create (emp : Employee)
  | update (emp : Employee)
  | delete (id : Int)
  deriving DecidableEq, Repr

/-- Run a sequence of store operations on one table; returns the final store
and the ids returned by the successful calls of `CreateEmmployee`, in order. -/
def runOps : DB → List Op → DB × List Int
  | db, [] => (db, [])
  | db, .create emp :: ops =>
    match CreateEmmployee db emp with
    | ((empId, none), db1) => ((runOps db1 ops).1, empId :: (runOps db1 ops).2)
    | ((_, some _), db1) => runOps db1 ops
  | db, .update emp :: ops => runOps (UpdateEmployee db emp).2 ops
  | db, .delete id :: ops => runOps (DeleteEmployee db id).2 ops

/-- The response a client sees: JSON content type, a status and the bodies written. -/
def respond (code : Nat) (body : List Json) : ResponseWriter :=
  { contentType := some "application/json; charset=utf-8", status := some code, body := body }

/-- The body `returnEmployee` writes for an error returned by its callback:
the marshalled error value, or nothing when it does not marshal. -/
def errorValueBody (err : GoError) : List Json :=
  match err.marshalled with
  | none => []
  | some text => [.raw text]

/-- A store error as the environment may inject it. -/
def errLocked : GoError :=
  { msg := "database is locked",
    marshalled := some "\x7b\"Code\":5,\"ExtendedCode\":5,\"SystemErrno\":0\x7d" }

/-! ## Concrete inputs -/

/-- An empty table on a healthy connection. -/
def emptyDB : DB := { rows := [], faults := [], rng := [], log := [] }

/-- A runtime that allocates slices of up to `2^48 / 56` employees and
marshals timestamps of years 0 to 9999. -/
def env64 : Env :=
  { maxSliceCap := 2 ^ 48 / 56,
    timeMarshals := fun t => decide (-62167219200 ≤ t.sec) && decide (t.sec ≤ 253402300799) }

/-- Employee Alice, as a caller builds it. -/
def alice : Employee :=
  { Id := 7, Name := "Alice", Position := "Engineer", Salary := .num (.fin 60000),
    DateCreated := none }

/-- Employee Alice with a NaN salary. -/
def nanAlice : Employee := { alice with Salary := .nan }

/-- A table of three rows. -/
def threeRows : DB :=
  { rows := [{ id := 1, name := "Alice", position := "Engineer", salary := some (.fin 60000),
               date_created := 0 },
             { id := 2, name := "Bob", position := "Manager", salary := some (.fin 70000),
               date_created := 0 },
             { id := 3, name := "Charlie", position := "Director", salary := some (.fin 80000),
               date_created := 0 }],
    faults := [], rng := [], log := [] }

/-- A table of one row. -/
def oneRow : DB :=
  { rows := [{ id := 1, name := "Alice", position := "Engineer", salary := some (.fin 60000),
               date_created := 0 }],
    faults := [], rng := [], log := [] }

/-- An update of row 1 whose timestamp has a sub-second part. -/
def aliceSmith : Employee :=
  { Id := 1, Name := "Alice Smith", Position := "Senior Engineer", Salary := .num (.fin 70000),
    DateCreated := some { sec := 5, nsec := 1 } }

/-- An update of row 1 with a NaN salary and a whole-second timestamp. -/
def nanSmith : Employee :=
  { aliceSmith with Salary := .nan, DateCreated := some { sec := 5, nsec := 0 } }

/-- The table of three rows on a connection that fails its next call. -/
def lockedRows : DB := { threeRows with faults := [some errLocked] }

/-- A request body with no field. -/
def Body.empty : Body :=
  { id := none, name := none, position := none, salary := none, date_created := none,
    page := none, count := none }

/-! ## Lemmas on the store -/

theorem Query_of_healthy (db : DB) (s : Stmt) (h : db.nextFault = none) :
    db.Query s = (.ok (evalSelect db.rows s),
      { db with faults := db.faults.tail, log := db.log ++ [s] }) := by
  simp [DB.Query, h]

theorem Exec_of_healthy (db : DB) (s : Stmt) (h : db.nextFault = none) :
    db.Exec s = ((evalExec db.rows db.rng s).1,
      { rows := (evalExec db.rows db.rng s).2.1, rng := (evalExec db.rows db.rng s).2.2,
        faults := db.faults.tail, log := db.log ++ [s] }) := by
  simp [DB.Exec, h]

theorem GetEmployee_of_healthy (db : DB) (id : Int) (h : db.nextFault = none) :
    (GetEmployee db id).1 =
      match db.rows.filter (fun r => r.id == id) with
      | row :: _ => employeeFromRows row
      | [] => (none, none) := by
  simp only [GetEmployee, Query_of_healthy db _ h, evalSelect]
  cases db.rows.filter (fun r => r.id == id) <;> rfl

theorem lastRowid_ge : ∀ (rows : List Row) (m : Int), lastRowid rows = some m →
    ∀ r ∈ rows, r.id ≤ m := by
  intro rows
  induction rows with
  | nil => intro m h; simp [lastRowid] at h
  | cons a rs ih =>
    intro m h r hr
    simp only [lastRowid] at h
    cases hl : lastRowid rs with
    | none =>
      rw [hl] at h
      have hnil : rs = [] := by
        cases rs with
        | nil => rfl
        | cons b bs =>
          simp only [lastRowid] at hl
          cases hb : lastRowid bs <;> simp [hb] at hl
      subst hnil
      simp at hr h
      subst hr
      omega
    | some k =>
      rw [hl] at h
      simp at h
      rcases List.mem_cons.mp hr with rfl | hmem
      · omega
      · have := ih k hl r hmem
        omega

theorem lastRowid_eq_none (rows : List Row) (h : lastRowid rows = none) : rows = [] := by
  cases rows with
  | nil => rfl
  | cons b bs =>
    simp only [lastRowid] at h
    cases hb : lastRowid bs <;> simp [hb] at h

theorem randomRowid_fresh (rows : List Row) : ∀ (n : Nat) (rng rng1 : List Int) (i : Int),
    randomRowid rows n rng = (some i, rng1) → ∀ r ∈ rows, r.id ≠ i := by
  intro n
  induction n with
  | zero => intro rng rng1 i h; simp [randomRowid] at h
  | succ n ih =>
    intro rng rng1 i h
    cases rng with
    | nil => simp [randomRowid] at h
    | cons v vs =>
      simp only [randomRowid] at h
      split at h
      · rename_i hall
        simp only [Prod.mk.injEq, Option.some.injEq] at h
        intro r hr
        have := List.all_eq_true.mp hall r hr
        rw [← h.1]
        simpa using this
      · exact ih vs rng1 i h

/-- A rowid chosen for an insert is held by no row of the table. -/
theorem newRowid_fresh (rows : List Row) (rng rng1 : List Int) (i : Int)
    (h : newRowid rows rng = (some i, rng1)) : ∀ r ∈ rows, r.id ≠ i := by
  unfold newRowid at h
  cases hl : lastRowid rows with
  | none =>
    rw [lastRowid_eq_none rows hl]
    simp
  | some m =>
    rw [hl] at h
    simp only at h
    split at h
    · simp only [Prod.mk.injEq, Option.some.injEq] at h
      intro r hr
      have := lastRowid_ge rows m hl r hr
      omega
    · exact randomRowid_fresh rows 100 rng rng1 i h

/-- What a successful `CreateEmmployee` did: it ran on a healthy connection,
chose a rowid and appended the row. -/
theorem CreateEmmployee_ok (db db1 : DB) (emp : Employee) (i : Int)
    (h : CreateEmmployee db emp = ((i, none), db1)) :
    ∃ rng1, newRowid db.rows db.rng = (some i, rng1) ∧
      db1.rows = db.rows ++ [{ id := i, name := emp.Name, position := emp.Position,
                               salary := bindFloat64 emp.Salary, date_created := 0 }] := by
  unfold CreateEmmployee DB.Exec at h
  cases hf : db.nextFault with
  | some e => simp [hf] at h
  | none =>
    simp only [hf, evalExec] at h
    cases hn : newRowid db.rows db.rng with
    | mk o rng1 =>
      cases o with
      | none => simp [hn] at h
      | some j =>
        simp only [hn, Prod.mk.injEq] at h
        obtain ⟨⟨hj, _⟩, hdb⟩ := h
        subst hj
        exact ⟨rng1, rfl, by rw [← hdb]⟩

theorem filter_id_append_fresh (rows : List Row) (row : Row)
    (h : ∀ r ∈ rows, r.id ≠ row.id) :
    (rows ++ [row]).filter (fun r => r.id == row.id) = [row] := by
  rw [List.filter_append]
  have : rows.filter (fun r => r.id == row.id) = [] := by
    rw [List.filter_eq_nil_iff]
    intro r hr
    simpa using h r hr
  simp [this]

theorem evalExec_uniqueIds (rows : List Row) (rng : List Int) (s : Stmt)
    (h : uniqueIds rows) : uniqueIds (evalExec rows rng s).2.1 := by
  unfold uniqueIds at *
  cases s with
  | insert name position salary =>
    simp only [evalExec]
    cases hn : newRowid rows rng with
    | mk o rng1 =>
      cases o with
      | none => simpa using h
      | some i =>
        have hfresh := newRowid_fresh rows rng rng1 i hn
        simp only [List.map_append, List.map_cons, List.map_nil]
        rw [List.nodup_append]
        refine ⟨h, List.nodup_singleton _, ?_⟩
        intro a ha hb
        simp only [List.mem_singleton] at hb
        obtain ⟨r, hr, hra⟩ := List.mem_map.mp ha
        exact hfresh r hr (by rw [hra, hb])
  | selectById id => simpa [evalExec] using h
  | update name position salary date_created id =>
    simp only [evalExec, List.map_map]
    have : ((fun r : Row => r.id) ∘ fun r : Row => if (r.id == id) = true then
        { r with name := name, position := position, salary := bindFloat64 salary,
                 date_created := date_created } else r) = fun r : Row => r.id := by
      funext r
      simp only [Function.comp]
      split <;> rfl
    rw [this]
    exact h
  | delete id =>
    simp only [evalExec]
    exact (List.Sublist.map _ (List.filter_sublist rows)).nodup h
  | selectBatch limit offset => simpa [evalExec] using h

theorem Exec_uniqueIds (db : DB) (s : Stmt) (h : uniqueIds db.rows) :
    uniqueIds (db.Exec s).2.rows := by
  unfold DB.Exec
  cases hf : db.nextFault with
  | some e => simpa using h
  | none => simpa using evalExec_uniqueIds db.rows db.rng s h

theorem CreateEmmployee_uniqueIds (db : DB) (emp : Employee) (h : uniqueIds db.rows) :
    uniqueIds (CreateEmmployee db emp).2.rows := by
  have := Exec_uniqueIds db (.insert emp.Name emp.Position emp.Salary) h
  unfold CreateEmmployee
  cases hx : db.Exec (.insert emp.Name emp.Position emp.Salary) with
  | mk res db1 =>
    rw [hx] at this
    cases res <;> simpa using this

theorem UpdateEmployee_uniqueIds (db : DB) (emp : Employee) (h : uniqueIds db.rows) :
    uniqueIds (UpdateEmployee db emp).2.rows := by
  unfold UpdateEmployee
  cases hd : emp.DateCreated with
  | none => simpa using h
  | some t =>
    have := Exec_uniqueIds db (.update emp.Name emp.Position emp.Salary t.Unix emp.Id) h
    simp only
    cases hx : db.Exec (.update emp.Name emp.Position emp.Salary t.Unix emp.Id) with
    | mk res db1 =>
      rw [hx] at this
      cases res <;> simpa using this

theorem DeleteEmployee_uniqueIds (db : DB) (id : Int) (h : uniqueIds db.rows) :
    uniqueIds (DeleteEmployee db id).2.rows := by
  have := Exec_uniqueIds db (.delete id) h
  unfold DeleteEmployee
  cases hx : db.Exec (.delete id) with
  | mk res db1 =>
    rw [hx] at this
    cases res <;> simpa using this

theorem runOps_uniqueIds : ∀ (ops : List Op) (db : DB), uniqueIds db.rows →
    uniqueIds (runOps db ops).1.rows := by
  intro ops
  induction ops with
  | nil => intro db h; simpa [runOps] using h
  | cons op ops ih =>
    intro db h
    cases op with
    | create emp =>
      have hc := CreateEmmployee_uniqueIds db emp h
      simp only [runOps]
      cases hx : CreateEmmployee db emp with
      | mk res db1 =>
        rw [hx] at hc
        obtain ⟨i, err⟩ := res
        cases err with
        | none => exact ih db1 hc
        | some e => exact ih db1 hc
    | update emp => exact ih _ (UpdateEmployee_uniqueIds db emp h)
    | delete id => exact ih _ (DeleteEmployee_uniqueIds db id h)

theorem DeleteEmployee_of_healthy (db : DB) (id : Int) (h : db.nextFault = none) :
    DeleteEmployee db id =
      (none, { rows := db.rows.filter (fun r => r.id != id), rng := db.rng,
               faults := db.faults.tail, log := db.log ++ [.delete id] }) := by
  simp [DeleteEmployee, Exec_of_healthy db _ h, evalExec]

theorem filter_other_id (rows : List Row) (i j : Int) (h : j ≠ i) :
    (rows.filter (fun r => r.id != i)).filter (fun r => r.id == j) =
      rows.filter (fun r => r.id == j) := by
  rw [List.filter_filter]
  apply List.filter_congr
  intro r _
  by_cases hr : r.id = j
  · simp [hr, h]
  · simp [hr]

theorem UpdateEmployee_ok (db db1 : DB) (e : Employee) (h : UpdateEmployee db e = (.ret none, db1)) :
    ∃ t, e.DateCreated = some t ∧
      db1.rows = db.rows.map (fun r => if r.id == e.Id then
        { r with name := e.Name, position := e.Position, salary := bindFloat64 e.Salary,
                 date_created := t.Unix } else r) := by
  unfold UpdateEmployee at h
  cases hd : e.DateCreated with
  | none => simp [hd] at h
  | some t =>
    refine ⟨t, rfl, ?_⟩
    simp only [hd, DB.Exec] at h
    cases hf : db.nextFault with
    | some err => simp [hf] at h
    | none =>
      simp only [hf, evalExec, Prod.mk.injEq] at h
      rw [← h.2]

theorem filter_map_update (rows : List Row) (f : Row → Row) (hf : ∀ r, (f r).id = r.id)
    (j : Int) :
    (rows.map f).filter (fun r => r.id == j) = (rows.filter (fun r => r.id == j)).map f := by
  induction rows with
  | nil => rfl
  | cons a rs ih =>
    simp only [List.map_cons, List.filter_cons, hf a]
    split
    · simp [ih]
    · exact ih

/-- A row with a salary scans to its record. -/
theorem employeeFromRows_of_salary (row : Row) (h : row.salary ≠ none) :
    employeeFromRows row = (some (rowEmployee row), none) := by
  unfold employeeFromRows rowEmployee
  cases hs : row.salary with
  | none => exact absurd hs h
  | some x => rfl

theorem scanAll_eq : ∀ (rows : List Row) (emps : List Employee),
    (∀ r ∈ rows, r.salary ≠ none) →
    scanAll rows emps = (some (emps ++ rows.map rowEmployee), none) := by
  intro rows
  induction rows with
  | nil => intro emps _; simp [scanAll]
  | cons a rs ih =>
    intro emps h
    simp only [scanAll, employeeFromRows_of_salary a (h a (List.mem_cons_self _ _))]
    rw [ih _ (fun r hr => h r (List.mem_cons_of_mem _ hr))]
    simp

theorem wrapInt_of_range (x : Int) (h0 : 0 ≤ x) (h1 : x < 2 ^ 63) : wrapInt x = x := by
  unfold wrapInt
  norm_num at h1 ⊢
  omega

theorem orderById_perm (rows : List Row) : (orderById rows).Perm rows :=
  List.perm_insertionSort _ rows

theorem orderById_sorted (rows : List Row) :
    (orderById rows).Pairwise (fun a b => a.id ≤ b.id) := by
  haveI : IsTotal Row (fun a b => a.id ≤ b.id) := ⟨fun a b => le_total a.id b.id⟩
  haveI : IsTrans Row (fun a b => a.id ≤ b.id) := ⟨fun a b c hab hbc => le_trans hab hbc⟩
  exact List.sorted_insertionSort (fun a b : Row => a.id ≤ b.id) rows

theorem orderById_strict (rows : List Row) (h : uniqueIds rows) :
    (orderById rows).Pairwise (fun a b => a.id < b.id) := by
  have hne : (orderById rows).Pairwise (fun a b => a.id ≠ b.id) := by
    have hn : ((orderById rows).map (fun r => r.id)).Nodup :=
      ((orderById_perm rows).map _).nodup_iff.mpr h
    exact List.pairwise_map.mp hn
  exact ((orderById_sorted rows).and hne).imp (fun hab => lt_of_le_of_ne hab.1 hab.2)

/-! ## Lemmas on the handlers -/

theorem returnErr_fresh (env : Env) (db : DB) (err : GoError) (code : Nat) :
    returnErr env ResponseWriter.fresh db err code = (.ret (), respond code [.errObj err.msg], db) := by
  simp [returnErr, returnEmployee, setHeader, ResponseWriter.fresh, ResponseWriter.WriteHeader,
    ResponseWriter.Write, jsonMarshal, respond]

/-- On a fresh writer, `returnEmployee` over a callback that returns an error
without writing answers 500 with the marshalled error value. -/
theorem returnEmployee_fresh_err (env : Env) (db db1 : DB)
    (withData : ResponseWriter → DB → Handled (Data × Option GoError))
    (data : Data) (e : GoError)
    (h : withData (setHeader ResponseWriter.fresh) db =
      (.ret (data, some e), setHeader ResponseWriter.fresh, db1)) :
    returnEmployee env ResponseWriter.fresh db withData =
      (.ret (), respond 500 (errorValueBody e), db1) := by
  unfold returnEmployee
  simp only [h, errorValueBody]
  cases e.marshalled <;>
    simp [setHeader, ResponseWriter.fresh, ResponseWriter.WriteHeader, ResponseWriter.Write,
      respond]

/-- On a fresh writer, `returnEmployee` over a callback that returns data
without writing answers 200 with the encoded data, or 500 without body when the
data does not encode. -/
theorem returnEmployee_fresh_ok (env : Env) (db db1 : DB)
    (withData : ResponseWriter → DB → Handled (Data × Option GoError))
    (data : Data)
    (h : withData (setHeader ResponseWriter.fresh) db =
      (.ret (data, none), setHeader ResponseWriter.fresh, db1)) :
    returnEmployee env ResponseWriter.fresh db withData =
      match jsonMarshal env data with
      | none => (.ret (), respond 500 [], db1)
      | some b => (.ret (), respond 200 [b], db1) := by
  unfold returnEmployee
  simp only [h]
  cases jsonMarshal env data <;>
    simp [setHeader, ResponseWriter.fresh, ResponseWriter.WriteHeader, ResponseWriter.Write,
      respond]

theorem getEmployeeData_of (id : Int) (w : ResponseWriter) (db db1 : DB)
    (emp : Option Employee) (err : Option GoError) (h : GetEmployee db id = ((emp, err), db1)) :
    getEmployeeData id w db = (.ret (.employee emp, err), w, db1) := by
  unfold getEmployeeData
  rw [h]

theorem Query_log (db : DB) (s : Stmt) : (db.Query s).2.log = db.log ++ [s] := by
  unfold DB.Query
  cases db.nextFault <;> rfl

theorem GetEmployeesBatch_store (env : Env) (db : DB) (p : PaginationParams) :
    (GetEmployeesBatch env db p).2 =
      (db.Query (.selectBatch p.Count (wrapInt (wrapInt (p.Page - 1) * p.Count)))).2 := by
  unfold GetEmployeesBatch
  cases hq : db.Query (.selectBatch p.Count (wrapInt (wrapInt (p.Page - 1) * p.Count))) with
  | mk res db1 =>
    cases res with
    | error e => rfl
    | ok rows =>
      simp only
      split <;> rfl

/-- The Get-batch handler on a GET request with positive page and count, by
the outcome of the store call. -/
theorem getBatch_handler_of_valid (env : Env) (db : DB) (req : Request) (hm : req.Method = "GET")
    (hpage : 0 < (fromBodyPagination req.Body { Page := 0, Count := 0 }).Page)
    (hcount : 0 < (fromBodyPagination req.Body { Page := 0, Count := 0 }).Count) :
    Handler.GetEmployeesBatch env db ResponseWriter.fresh req =
      match GetEmployeesBatch env db (fromBodyPagination req.Body { Page := 0, Count := 0 }) with
      | (.panic m, db1) => (.panic m, setHeader ResponseWriter.fresh, db1)
      | (.ret (_, some e), db1) => (.ret (), respond 500 (errorValueBody e), db1)
      | (.ret (emps, none), db1) =>
        match jsonMarshal env (.employees emps) with
        | none => (.ret (), respond 500 [], db1)
        | some b => (.ret (), respond 200 [b], db1) := by
  have hno : ¬ ((fromBodyPagination req.Body { Page := 0, Count := 0 }).Count ≤ 0 ∨
      (fromBodyPagination req.Body { Page := 0, Count := 0 }).Page ≤ 0) := by omega
  unfold Handler.GetEmployeesBatch
  simp only [hm, hno, if_false, bne_self_eq_false, Bool.false_eq_true]
  cases hb : GetEmployeesBatch env db (fromBodyPagination req.Body { Page := 0, Count := 0 }) with
  | mk out db1 =>
    cases out with
    | panic m =>
      simp only [returnEmployee, hb]
    | ret res =>
      obtain ⟨emps, err⟩ := res
      cases err with
      | some e =>
        simp only
        exact returnEmployee_fresh_err env db db1 _ (.employees emps) e (by simp only [hb])
      | none =>
        simp only
        exact returnEmployee_fresh_ok env db db1 _ (.employees emps) (by simp only [hb])

/-- The answer of `returnEmployee` over the re-fetch callback, by the outcome
of `GetEmployee`. -/
theorem returnEmployee_get (env : Env) (db : DB) (id : Int) :
    returnEmployee env ResponseWriter.fresh db (getEmployeeData id) =
      match GetEmployee db id with
      | ((_, some e), db1) => (.ret (), respond 500 (errorValueBody e), db1)
      | ((emp, none), db1) =>
        match jsonMarshal env (.employee emp) with
        | none => (.ret (), respond 500 [], db1)
        | some b => (.ret (), respond 200 [b], db1) := by
  cases hg : GetEmployee db id with
  | mk res db1 =>
    obtain ⟨emp, err⟩ := res
    cases err with
    | some e =>
      simp only
      exact returnEmployee_fresh_err env db db1 _ (.employee emp) e
        (getEmployeeData_of id _ db db1 emp (some e) hg)
    | none =>
      simp only
      exact returnEmployee_fresh_ok env db db1 _ (.employee emp)
        (getEmployeeData_of id _ db db1 emp none hg)

/-- When the re-fetch answers 500, `GetEmployee` failed or its record does not encode. -/
theorem returnEmployee_get_500 (env : Env) (db : DB) (id : Int)
    (h : (returnEmployee env ResponseWriter.fresh db (getEmployeeData id)).2.1.code = 500) :
    (GetEmployee db id).1.2 ≠ none ∨ jsonMarshal env (.employee (GetEmployee db id).1.1) = none := by
  rw [returnEmployee_get] at h
  cases hg : GetEmployee db id with
  | mk res db1 =>
    obtain ⟨emp, err⟩ := res
    rw [hg] at h
    cases err with
    | some e => left; simp
    | none =>
      right
      simp only at h ⊢
      cases hj : jsonMarshal env (.employee emp) with
      | none => rfl
      | some b =>
        rw [hj] at h
        simp [respond, ResponseWriter.code] at h

/-- The record fetched after a successful create of an employee whose salary is not NaN. -/
theorem fetch_created (db db1 : DB) (e : Employee) (i : Int)
    (hcreate : CreateEmmployee db e = ((i, none), db1)) (hget : db1.nextFault = none)
    (hsal : e.Salary ≠ .nan) :
    (GetEmployee db1 i).1 =
      (some { Id := i, Name := e.Name, Position := e.Position, Salary := e.Salary,
              DateCreated := some (timeUnix 0) }, none) := by
  obtain ⟨rng1, hnew, hrows⟩ := CreateEmmployee_ok db db1 e i hcreate
  have hfresh := newRowid_fresh db.rows db.rng rng1 i hnew
  rw [GetEmployee_of_healthy db1 i hget, hrows]
  have := filter_id_append_fresh db.rows
    { id := i, name := e.Name, position := e.Position, salary := bindFloat64 e.Salary,
      date_created := 0 } hfresh
  simp only at this
  rw [this]
  cases hs : e.Salary with
  | nan => exact absurd hs hsal
  | num x => rfl

/-! ## The claims -/

/-- C2 as stated fails: for an employee with a NaN salary `CreateEmmployee`
succeeds with id 1, the salary being stored as NULL, and `GetEmployee` of 1 then
returns the scan error and no record. -/
theorem create_nan_salary_not_fetched :
    CreateEmmployee emptyDB nanAlice = ((1, none), (CreateEmmployee emptyDB nanAlice).2) ∧
    (CreateEmmployee emptyDB nanAlice).2.nextFault = none ∧
    (GetEmployee (CreateEmmployee emptyDB nanAlice).2 1).1 = (none, some errScanSalary) ∧
    ¬ ∃ r, (GetEmployee (CreateEmmployee emptyDB nanAlice).2 1).1 = (some r, none) := by
  have h : (GetEmployee (CreateEmmployee emptyDB nanAlice).2 1).1 = (none, some errScanSalary) :=
    rfl
  refine ⟨rfl, rfl, h, ?_⟩
  rintro ⟨r, hr⟩
  rw [h] at hr
  simp at hr

/-- C2 amended: when `CreateEmmployee` succeeds with id `i` for an employee whose
salary is not NaN, `GetEmployee` of `i` on the resulting store (its statement
executing) returns a present record with id `i` and the name, position and
salary of the employee passed in, whatever id and timestamp that employee
carried. -/
theorem create_then_get_roundtrip (db db1 : DB) (e : Employee) (i : Int)
    (hcreate : CreateEmmployee db e = ((i, none), db1)) (hget : db1.nextFault = none)
    (hsal : e.Salary ≠ .nan) :
    ∃ r, (GetEmployee db1 i).1 = (some r, none) ∧ r.Id = i ∧ r.Name = e.Name ∧
      r.Position = e.Position ∧ r.Salary = e.Salary :=
  ⟨_, fetch_created db db1 e i hcreate hget hsal, rfl, rfl, rfl, rfl⟩

/-- Witness of C2 amended: Alice, passed with id 7 and no timestamp, is created
in the empty table under id 1 and fetched back. -/
theorem create_then_get_roundtrip_witness :
    CreateEmmployee emptyDB alice = ((1, none), (CreateEmmployee emptyDB alice).2) ∧
    (CreateEmmployee emptyDB alice).2.nextFault = none ∧ alice.Salary ≠ .nan ∧
    ∃ r, (GetEmployee (CreateEmmployee emptyDB alice).2 1).1 = (some r, none) ∧ r.Id = 1 ∧
      r.Name = alice.Name ∧ r.Position = alice.Position ∧ r.Salary = alice.Salary :=
  ⟨rfl, rfl, by decide,
    create_then_get_roundtrip emptyDB (CreateEmmployee emptyDB alice).2 alice 1 rfl rfl
      (by decide)⟩

/-- C4: on a store whose statement executes, `DeleteEmployee` of `i` returns no
error and leaves the table with the rows of id `i` removed: `GetEmployee` of `i`
is then absent, the rows and the fetched record of every other id are as
before, a table without id `i` is left as it was, and a second delete changes
nothing more. -/
theorem delete_removes_only_that_row (db : DB) (i : Int) (h : db.nextFault = none) :
    (DeleteEmployee db i).1 = none ∧
    (DeleteEmployee db i).2.rows = db.rows.filter (fun r => r.id != i) ∧
    ((DeleteEmployee db i).2.nextFault = none →
      (GetEmployee (DeleteEmployee db i).2 i).1 = (none, none)) ∧
    (∀ j, j ≠ i → (DeleteEmployee db i).2.rows.filter (fun r => r.id == j) =
      db.rows.filter (fun r => r.id == j)) ∧
    (∀ j, j ≠ i → (DeleteEmployee db i).2.nextFault = none →
      (GetEmployee (DeleteEmployee db i).2 j).1 = (GetEmployee db j).1) ∧
    ((∀ r ∈ db.rows, r.id ≠ i) → (DeleteEmployee db i).2.rows = db.rows) ∧
    ((DeleteEmployee db i).2.nextFault = none →
      (DeleteEmployee (DeleteEmployee db i).2 i).1 = none ∧
      (DeleteEmployee (DeleteEmployee db i).2 i).2.rows = (DeleteEmployee db i).2.rows) := by
  have hdel := DeleteEmployee_of_healthy db i h
  refine ⟨by rw [hdel], by rw [hdel], ?_, ?_, ?_, ?_, ?_⟩
  · intro h1
    rw [GetEmployee_of_healthy _ i h1, hdel]
    have : (db.rows.filter (fun r => r.id != i)).filter (fun r => r.id == i) = [] := by
      rw [List.filter_eq_nil_iff]
      intro r hr
      have := (List.mem_filter.mp hr).2
      simpa using this
    simp only [this]
  · intro j hj
    rw [hdel]
    exact filter_other_id db.rows i j hj
  · intro j hj h1
    rw [GetEmployee_of_healthy _ j h1, GetEmployee_of_healthy db j h, hdel]
    simp only [filter_other_id db.rows i j hj]
  · intro hno
    rw [hdel]
    simp only
    rw [List.filter_eq_self]
    intro r hr
    simpa using hno r hr
  · intro h1
    have hdel2 := DeleteEmployee_of_healthy (DeleteEmployee db i).2 i h1
    refine ⟨by rw [hdel2], ?_⟩
    rw [hdel2]
    simp only
    rw [List.filter_eq_self]
    intro r hr
    rw [hdel] at hr
    exact (List.mem_filter.mp hr).2

/-- Witness of C4: deleting id 2 from the table of three rows. -/
theorem delete_removes_only_that_row_witness :
    threeRows.nextFault = none ∧ (DeleteEmployee threeRows 2).1 = none ∧
    (DeleteEmployee threeRows 2).2.rows = threeRows.rows.filter (fun r => r.id != 2) :=
  ⟨rfl, (delete_removes_only_that_row threeRows 2 rfl).1,
    (delete_removes_only_that_row threeRows 2 rfl).2.1⟩

/-- C7: updating with an employee whose timestamp is nil panics in the store
function, before any statement is issued, and the handler panics with it; no
validation error is returned. -/
theorem update_nil_timestamp_panics :
    UpdateEmployee threeRows { alice with Id := 1 } =
      (.panic "runtime error: invalid memory address or nil pointer dereference", threeRows) ∧
    Handler.UpdateEmployee env64 threeRows ResponseWriter.fresh
        { Method := "PUT", Body := { Body.empty with id := some 1, name := some "Alice" } } =
      (.panic "runtime error: invalid memory address or nil pointer dereference",
        ResponseWriter.fresh, threeRows) := by
  constructor <;> rfl

/-- C9 as stated fails: an employee created at any time after the epoch, for
instance at Unix second 1700000000, is fetched back with the timestamp of Unix
second 0, which is before its creation time; and an employee created with a NaN
salary is not fetched back at all, the read returning the scan error. -/
theorem create_timestamp_not_creation_time :
    (CreateEmmployee emptyDB alice = ((1, none), (CreateEmmployee emptyDB alice).2) ∧
      ∃ r, (GetEmployee (CreateEmmployee emptyDB alice).2 1).1 = (some r, none) ∧
        r.DateCreated = some (timeUnix 0) ∧
        ¬ ∃ ts, r.DateCreated = some ts ∧ (1700000000 : Int) ≤ ts.Unix) ∧
    (CreateEmmployee emptyDB nanAlice = ((1, none), (CreateEmmployee emptyDB nanAlice).2) ∧
      (GetEmployee (CreateEmmployee emptyDB nanAlice).2 1).1 = (none, some errScanSalary)) := by
  refine ⟨⟨rfl, _, rfl, rfl, ?_⟩, rfl, rfl⟩
  rintro ⟨ts, hts, hle⟩
  simp only [Option.some.injEq] at hts
  rw [← hts] at hle
  simp [Time.Unix, timeUnix] at hle

/-- C9 amended: an employee created with a salary that is not NaN, fetched by
the returned id, carries a non-null timestamp equal to Unix second 0, whatever
the creation time; that timestamp is after the Go zero time. -/
theorem create_timestamp_is_epoch (db db1 : DB) (e : Employee) (i : Int)
    (hcreate : CreateEmmployee db e = ((i, none), db1)) (hget : db1.nextFault = none)
    (hsal : e.Salary ≠ .nan) :
    ∃ r, (GetEmployee db1 i).1 = (some r, none) ∧ r.DateCreated = some (timeUnix 0) ∧
      (timeUnix 0).After zeroTime = true :=
  ⟨_, fetch_created db db1 e i hcreate hget hsal, rfl, by decide⟩

/-- Witness of C9 amended: Alice created in the table of three rows gets id 4. -/
theorem create_timestamp_is_epoch_witness :
    CreateEmmployee threeRows alice = ((4, none), (CreateEmmployee threeRows alice).2) ∧
    (CreateEmmployee threeRows alice).2.nextFault = none ∧ alice.Salary ≠ .nan ∧
    ∃ r, (GetEmployee (CreateEmmployee threeRows alice).2 4).1 = (some r, none) ∧
      r.DateCreated = some (timeUnix 0) ∧ (timeUnix 0).After zeroTime = true :=
  ⟨rfl, rfl, by decide,
    create_timestamp_is_epoch threeRows (CreateEmmployee threeRows alice).2 alice 4 rfl rfl
      (by decide)⟩

/-- C10 as stated fails: create, delete the created row, create again returns
id 1 twice. -/
theorem id_reused_after_delete :
    (runOps emptyDB [.create alice, .delete 1, .create alice]).2 = [1, 1] ∧
    ¬ (runOps emptyDB [.create alice, .delete 1, .create alice]).2.Nodup := by
  have h : (runOps emptyDB [.create alice, .delete 1, .create alice]).2 = [1, 1] := rfl
  refine ⟨h, ?_⟩
  rw [h]
  decide

/-- C10 amended: after every sequence of Create, Update and Delete operations on
a table with unique ids, the ids of the rows are still unique, and a successful
`CreateEmmployee` returns an id that no row of the table holds at that moment:
1 on an empty table, the largest id plus one when that is below `2^63 - 1`.
An id whose row was deleted is not excluded. -/
theorem created_id_fresh_among_rows (db : DB) (ops : List Op) (h : uniqueIds db.rows) :
    uniqueIds (runOps db ops).1.rows ∧
    ∀ (e : Employee) (i : Int) (db2 : DB),
      CreateEmmployee (runOps db ops).1 e = ((i, none), db2) →
        (∀ r ∈ (runOps db ops).1.rows, r.id ≠ i) ∧ uniqueIds db2.rows ∧
        ((runOps db ops).1.rows = [] → i = 1) ∧
        (∀ m, lastRowid (runOps db ops).1.rows = some m → m < maxRowid → i = m + 1) := by
  have hu := runOps_uniqueIds ops db h
  refine ⟨hu, ?_⟩
  intro e i db2 hc
  obtain ⟨rng1, hnew, _⟩ := CreateEmmployee_ok _ db2 e i hc
  refine ⟨newRowid_fresh _ _ rng1 i hnew, ?_, ?_, ?_⟩
  · have := CreateEmmployee_uniqueIds (runOps db ops).1 e hu
    rw [hc] at this
    exact this
  · intro hnil
    rw [hnil] at hnew
    simp only [newRowid, lastRowid, Prod.mk.injEq, Option.some.injEq] at hnew
    exact hnew.1.symm
  · intro m hm hlt
    simp only [newRowid, hm, hlt, if_true, Prod.mk.injEq, Option.some.injEq] at hnew
    exact hnew.1.symm

/-- Witness of C10 amended: after creating Alice and deleting id 2 in the table
of three rows, the next create returns 5, an id no row holds. -/
theorem created_id_fresh_among_rows_witness :
    uniqueIds threeRows.rows ∧
    uniqueIds (runOps threeRows [.create alice, .delete 2]).1.rows ∧
    ∀ r ∈ (runOps threeRows [.create alice, .delete 2]).1.rows, r.id ≠ 5 :=
  ⟨by decide,
    (created_id_fresh_among_rows threeRows [.create alice, .delete 2] (by decide)).1,
    ((created_id_fresh_among_rows threeRows [.create alice, .delete 2] (by decide)).2 alice 5
      (CreateEmmployee (runOps threeRows [.create alice, .delete 2]).1 alice).2 rfl).1⟩

/-- C1 as stated fails at both ends of the integer range and on a NULL salary.
With page `2^62 + 1` and count 4 the offset `(page-1)*count = 2^64` wraps to 0,
and the one row of the table is returned although the window lies far beyond
it.  With page 1 and count `2^62` the query runs and the allocation of the
result slice panics.  On the table left by creating an employee with a NaN
salary, page 1 of size 2 returns the scan error and no records. -/
theorem batch_window_fails_out_of_range :
    (0 < (2 ^ 62 + 1 : Int) ∧ 0 < (4 : Int) ∧
      (GetEmployeesBatch env64 oneRow { Page := 2 ^ 62 + 1, Count := 4 }).1 =
        .ret (some (oneRow.rows.map rowEmployee), none) ∧
      (((orderById oneRow.rows).drop ((2 ^ 62 + 1 - 1 : Int) * 4).toNat).take
        (4 : Int).toNat).map rowEmployee = [] ∧
      oneRow.rows.map rowEmployee ≠ []) ∧
    (0 < (1 : Int) ∧ 0 < (2 ^ 62 : Int) ∧
      (GetEmployeesBatch env64 oneRow { Page := 1, Count := 2 ^ 62 }).1 =
        .panic "runtime error: makeslice: cap out of range") ∧
    (CreateEmmployee emptyDB nanAlice = ((1, none), (CreateEmmployee emptyDB nanAlice).2) ∧
      (GetEmployeesBatch env64 (CreateEmmployee emptyDB nanAlice).2 { Page := 1, Count := 2 }).1 =
        .ret (none, some errScanSalary)) := by
  refine ⟨⟨by norm_num, by norm_num, ?_, ?_, by simp [oneRow]⟩, ⟨by norm_num, by norm_num, ?_⟩,
    ?_, ?_⟩
  · rfl
  · rfl
  · rfl
  · rfl
  · rfl

/-- C1 amended: on a table with unique ids and no NULL salary whose statement
executes, for `page > 0`, `count > 0`, an offset `(page-1)*count` below `2^63`
and a count the runtime can allocate, `GetEmployeesBatch` returns without error
the records of the rows ordered by ascending id, without the first
`(page-1)*count`, cut after `count`, each record being what `employeeFromRows`
scans from its row: at most `count` records, in strictly ascending id order, and
the empty non-nil sequence when the table has no more than `(page-1)*count`
rows. -/
theorem batch_is_page_window (env : Env) (db : DB) (p : PaginationParams)
    (hq : db.nextFault = none) (hu : uniqueIds db.rows)
    (hsal : ∀ r ∈ db.rows, r.salary ≠ none)
    (hpage : 0 < p.Page) (hcount : 0 < p.Count)
    (hoff : (p.Page - 1) * p.Count < 2 ^ 63) (hcap : p.Count ≤ env.maxSliceCap) :
    ∃ sorted : List Row, sorted.Perm db.rows ∧ sorted.Pairwise (fun a b => a.id < b.id) ∧
      ∃ emps, (GetEmployeesBatch env db p).1 = .ret (some emps, none) ∧
        emps = ((sorted.drop ((p.Page - 1) * p.Count).toNat).take p.Count.toNat).map
          rowEmployee ∧
        ((sorted.drop ((p.Page - 1) * p.Count).toNat).take p.Count.toNat).map
          employeeFromRows = emps.map (fun e => (some e, none)) ∧
        (emps.length : Int) ≤ p.Count ∧
        emps.Pairwise (fun a b => a.Id < b.Id) ∧
        ((db.rows.length : Int) ≤ (p.Page - 1) * p.Count → emps = []) := by
  have hstrict := orderById_strict db.rows hu
  have hpm : 0 ≤ p.Page - 1 := by omega
  have hprod : 0 ≤ (p.Page - 1) * p.Count := mul_nonneg hpm (le_of_lt hcount)
  have hpm1 : p.Page - 1 < 2 ^ 63 := by
    have : p.Page - 1 ≤ (p.Page - 1) * p.Count := le_mul_of_one_le_right hpm (by omega)
    omega
  have hw : wrapInt (wrapInt (p.Page - 1) * p.Count) = (p.Page - 1) * p.Count := by
    rw [wrapInt_of_range _ hpm hpm1, wrapInt_of_range _ hprod hoff]
  have hwin : ∀ r ∈ ((orderById db.rows).drop ((p.Page - 1) * p.Count).toNat).take
      p.Count.toNat, r.salary ≠ none := by
    intro r hr
    have hsub := ((List.take_sublist p.Count.toNat _).trans
      (List.drop_sublist ((p.Page - 1) * p.Count).toNat (orderById db.rows))).subset hr
    exact hsal r ((orderById_perm db.rows).subset hsub)
  refine ⟨orderById db.rows, orderById_perm db.rows, hstrict, _, ?_, rfl, ?_, ?_, ?_, ?_⟩
  · unfold GetEmployeesBatch
    rw [Query_of_healthy db _ hq, hw]
    have hno : ¬ (p.Count < 0 ∨ (env.maxSliceCap : Int) < p.Count) := by omega
    have hneg : ¬ p.Count < 0 := by omega
    simp only [hno, if_false, evalSelect]
    simp only [hneg, if_false]
    rw [scanAll_eq _ [] hwin]
    simp
  · rw [List.map_map]
    apply List.map_congr_left
    intro r hr
    exact employeeFromRows_of_salary r (hwin r hr)
  · rw [List.length_map, List.length_take]
    have h1 : min p.Count.toNat
        ((orderById db.rows).drop ((p.Page - 1) * p.Count).toNat).length ≤ p.Count.toNat :=
      min_le_left _ _
    have h2 := Int.toNat_of_nonneg (le_of_lt hcount)
    omega
  · rw [List.pairwise_map]
    exact (hstrict.sublist
      ((List.take_sublist _ _).trans (List.drop_sublist _ _))).imp (fun h => h)
  · intro hlen
    have hl : (orderById db.rows).length = db.rows.length := (orderById_perm db.rows).length_eq
    have : (orderById db.rows).drop ((p.Page - 1) * p.Count).toNat = [] := by
      apply List.drop_eq_nil_of_le
      rw [hl]
      omega
    rw [this]
    simp

/-- Witness of C1 amended: page 2 of size 2 of the table of three rows is the
record of row 3. -/
theorem batch_is_page_window_witness :
    threeRows.nextFault = none ∧ uniqueIds threeRows.rows ∧
    (∀ r ∈ threeRows.rows, r.salary ≠ none) ∧
    ∃ sorted : List Row, sorted.Perm threeRows.rows ∧
      sorted.Pairwise (fun a b => a.id < b.id) ∧
      ∃ emps, (GetEmployeesBatch env64 threeRows { Page := 2, Count := 2 }).1 =
          .ret (some emps, none) ∧
        emps = ((sorted.drop (((2 : Int) - 1) * 2).toNat).take (2 : Int).toNat).map
          rowEmployee ∧
        ((sorted.drop (((2 : Int) - 1) * 2).toNat).take (2 : Int).toNat).map
          employeeFromRows = emps.map (fun e => (some e, none)) ∧
        (emps.length : Int) ≤ 2 ∧
        emps.Pairwise (fun a b => a.Id < b.Id) ∧
        ((threeRows.rows.length : Int) ≤ ((2 : Int) - 1) * 2 → emps = []) :=
  ⟨rfl, by decide, by decide,
    batch_is_page_window env64 threeRows { Page := 2, Count := 2 } rfl (by decide) (by decide)
      (by decide) (by decide) (by decide) (by decide)⟩

/-- C3 as stated fails.  Updating row 1 with a timestamp of 5 s and 1 ns
succeeds, and the record fetched afterwards carries 5 s and 0 ns, so it differs
from the employee passed in.  Updating row 1 with a NaN salary succeeds, the
salary being stored as NULL, and the fetch afterwards returns the scan error
and no record. -/
theorem update_truncates_timestamp :
    ((∃ r ∈ threeRows.rows, r.id = aliceSmith.Id) ∧
      (UpdateEmployee threeRows aliceSmith).1 = .ret none ∧
      (GetEmployee (UpdateEmployee threeRows aliceSmith).2 1).1 =
        (some { aliceSmith with DateCreated := some { sec := 5, nsec := 0 } }, none) ∧
      (GetEmployee (UpdateEmployee threeRows aliceSmith).2 1).1 ≠ (some aliceSmith, none)) ∧
    ((∃ r ∈ threeRows.rows, r.id = nanSmith.Id) ∧
      (UpdateEmployee threeRows nanSmith).1 = .ret none ∧
      (GetEmployee (UpdateEmployee threeRows nanSmith).2 1).1 = (none, some errScanSalary) ∧
      (GetEmployee (UpdateEmployee threeRows nanSmith).2 1).1 ≠ (some nanSmith, none)) := by
  have h : (GetEmployee (UpdateEmployee threeRows aliceSmith).2 1).1 =
      (some { aliceSmith with DateCreated := some { sec := 5, nsec := 0 } }, none) := rfl
  have h2 : (GetEmployee (UpdateEmployee threeRows nanSmith).2 1).1 =
      (none, some errScanSalary) := rfl
  refine ⟨⟨⟨_, List.mem_cons_self _ _, rfl⟩, rfl, h, ?_⟩,
    ⟨_, List.mem_cons_self _ _, rfl⟩, rfl, h2, ?_⟩
  · rw [h]
    decide
  · rw [h2]
    decide

/-- C3 amended: when the table has a row with the id of `e`, `e` carries a
timestamp and a salary that is not NaN, and `UpdateEmployee` succeeds,
`GetEmployee` of that id returns the name, position and salary of `e` and the
supplied timestamp cut to whole seconds; it returns `e` itself when the supplied
timestamp has no sub-second part, as every timestamp fetched from the store
has.  Rows of other ids are unchanged and no row is added or removed. -/
theorem update_then_get (db db1 : DB) (e : Employee) (t : Time)
    (hts : e.DateCreated = some t) (hsal : e.Salary ≠ .nan)
    (hrow : ∃ r ∈ db.rows, r.id = e.Id)
    (hupd : UpdateEmployee db e = (.ret none, db1)) (hget : db1.nextFault = none) :
    (GetEmployee db1 e.Id).1 = (some { e with DateCreated := some (timeUnix t.Unix) }, none) ∧
    (t.nsec = 0 → (GetEmployee db1 e.Id).1 = (some e, none)) ∧
    (∀ j, j ≠ e.Id →
      db1.rows.filter (fun r => r.id == j) = db.rows.filter (fun r => r.id == j)) ∧
    db1.rows.map (fun r => r.id) = db.rows.map (fun r => r.id) := by
  obtain ⟨t1, ht1, hrows⟩ := UpdateEmployee_ok db db1 e hupd
  rw [hts] at ht1
  simp only [Option.some.injEq] at ht1
  subst ht1
  have hid : ∀ r : Row, (if r.id == e.Id then
      { r with name := e.Name, position := e.Position, salary := bindFloat64 e.Salary,
               date_created := t.Unix } else r).id = r.id := by
    intro r
    split <;> rfl
  have hmain : (GetEmployee db1 e.Id).1 =
      (some { e with DateCreated := some (timeUnix t.Unix) }, none) := by
    rw [GetEmployee_of_healthy db1 e.Id hget, hrows, filter_map_update db.rows _ hid e.Id]
    obtain ⟨r, hr, hre⟩ := hrow
    have hmem : r ∈ db.rows.filter (fun r => r.id == e.Id) :=
      List.mem_filter.mpr ⟨hr, by simpa using hre⟩
    cases hfl : db.rows.filter (fun r => r.id == e.Id) with
    | nil => rw [hfl] at hmem; simp at hmem
    | cons a rest =>
      have ha : a.id = e.Id := by
        have : a ∈ db.rows.filter (fun r => r.id == e.Id) := by rw [hfl]; simp
        simpa using (List.mem_filter.mp this).2
      cases hs : e.Salary with
      | nan => exact absurd hs hsal
      | num x =>
        simp [employeeFromRows, bindFloat64, ha]
  refine ⟨hmain, ?_, ?_, ?_⟩
  · intro hn
    rw [hmain]
    have : timeUnix t.Unix = t := by
      cases t
      simp only [Time.Unix, timeUnix] at *
      rw [hn]
    rw [this, ← hts]
  · intro j hj
    rw [hrows, filter_map_update db.rows _ hid j]
    conv_rhs => rw [← List.map_id (db.rows.filter (fun r => r.id == j))]
    apply List.map_congr_left
    intro r hr
    have hrj : r.id = j := by simpa using (List.mem_filter.mp hr).2
    have : ¬ r.id = e.Id := by rw [hrj]; exact hj
    simp [this]
  · rw [hrows, List.map_map]
    apply List.map_congr_left
    intro r _
    exact hid r

/-- Witness of C3 amended: row 1 of the table of three rows updated with the
Alice Smith record. -/
theorem update_then_get_witness :
    aliceSmith.DateCreated = some { sec := 5, nsec := 1 } ∧ aliceSmith.Salary ≠ .nan ∧
    (∃ r ∈ threeRows.rows, r.id = aliceSmith.Id) ∧
    UpdateEmployee threeRows aliceSmith = (.ret none, (UpdateEmployee threeRows aliceSmith).2) ∧
    (UpdateEmployee threeRows aliceSmith).2.nextFault = none ∧
    (GetEmployee (UpdateEmployee threeRows aliceSmith).2 aliceSmith.Id).1 =
      (some { aliceSmith with DateCreated := some (timeUnix 5) }, none) :=
  ⟨rfl, by decide, ⟨_, List.mem_cons_self _ _, rfl⟩, rfl, rfl,
    (update_then_get threeRows (UpdateEmployee threeRows aliceSmith).2 aliceSmith
      { sec := 5, nsec := 1 } rfl (by decide) ⟨_, List.mem_cons_self _ _, rfl⟩ rfl rfl).1⟩

/-- C8: for an id that has no row, on a store whose statement executes, the
Get handler answers a GET request for that id with status 200 and a body that
decodes to the zero-valued Employee, the JSON `null`; the handler returns
normally. -/
theorem get_absent_is_ok_zero (env : Env) (db : DB) (req : Request) (i : Int)
    (hm : req.Method = "GET") (hid : req.Body.id = some i)
    (habs : ∀ r ∈ db.rows, r.id ≠ i) (hq : db.nextFault = none) :
    (Handler.GetEmployee env db ResponseWriter.fresh req).1 = .ret () ∧
    (Handler.GetEmployee env db ResponseWriter.fresh req).2.1.status = some 200 ∧
    (Handler.GetEmployee env db ResponseWriter.fresh req).2.1.code = 200 ∧
    (∃ b, (Handler.GetEmployee env db ResponseWriter.fresh req).2.1.body = [b] ∧
      jsonUnmarshalEmployee b Employee.zero = Employee.zero) ∧
    (Handler.GetEmployee env db ResponseWriter.fresh req).2.1.body = [.null] := by
  have hget : (GetEmployee db i).1 = (none, none) := by
    rw [GetEmployee_of_healthy db i hq]
    have : db.rows.filter (fun r => r.id == i) = [] := by
      rw [List.filter_eq_nil_iff]
      intro r hr
      simpa using habs r hr
    simp only [this]
  have hdec : (fromBodyEmployee req.Body Employee.zero).Id = i := by
    simp [fromBodyEmployee, hid]
  have hres : Handler.GetEmployee env db ResponseWriter.fresh req =
      (.ret (), respond 200 [.null], (GetEmployee db i).2) := by
    have hfull : GetEmployee db i = ((none, none), (GetEmployee db i).2) := by
      rw [← hget]
    unfold Handler.GetEmployee
    simp only [hm, hdec]
    rw [returnEmployee_fresh_ok env db (GetEmployee db i).2 (getEmployeeData i)
      (.employee none) (getEmployeeData_of i _ db _ none none hfull)]
    simp [jsonMarshal]
  rw [hres]
  exact ⟨rfl, rfl, rfl, ⟨.null, rfl, rfl⟩, rfl⟩

/-- Witness of C8: id 9 in the table of three rows. -/
theorem get_absent_is_ok_zero_witness :
    (∀ r ∈ threeRows.rows, r.id ≠ 9) ∧ threeRows.nextFault = none ∧
    (Handler.GetEmployee env64 threeRows ResponseWriter.fresh
      { Method := "GET", Body := { Body.empty with id := some 9 } }).2.1.status = some 200 :=
  ⟨by decide, rfl,
    (get_absent_is_ok_zero env64 threeRows
      { Method := "GET", Body := { Body.empty with id := some 9 } } 9 rfl rfl (by decide) rfl).2.1⟩

/-- C5: on a GET request the Get-batch handler answers 400 with the payload
holding the validation message under `Err`, leaving the store untouched (no
statement issued), when the decoded page or count is not positive, which
includes a body omitting either field; the status is 400 exactly in that case;
when both are positive the store is queried once, by `GetEmployeesBatch` with
exactly the decoded parameters. -/
theorem batch_handler_validation (env : Env) (db : DB) (req : Request)
    (hm : req.Method = "GET") :
    ((fromBodyPagination req.Body { Page := 0, Count := 0 }).Page ≤ 0 ∨
      (fromBodyPagination req.Body { Page := 0, Count := 0 }).Count ≤ 0 →
      Handler.GetEmployeesBatch env db ResponseWriter.fresh req =
        (.ret (), respond 400 [.errObj "page and count fields are required and must be > 0"],
          db)) ∧
    ((Handler.GetEmployeesBatch env db ResponseWriter.fresh req).2.1.code = 400 ↔
      ((fromBodyPagination req.Body { Page := 0, Count := 0 }).Page ≤ 0 ∨
        (fromBodyPagination req.Body { Page := 0, Count := 0 }).Count ≤ 0)) ∧
    (0 < (fromBodyPagination req.Body { Page := 0, Count := 0 }).Page ∧
      0 < (fromBodyPagination req.Body { Page := 0, Count := 0 }).Count →
      (Handler.GetEmployeesBatch env db ResponseWriter.fresh req).2.2 =
        (GetEmployeesBatch env db (fromBodyPagination req.Body { Page := 0, Count := 0 })).2 ∧
      (Handler.GetEmployeesBatch env db ResponseWriter.fresh req).2.2.log = db.log ++
        [.selectBatch (fromBodyPagination req.Body { Page := 0, Count := 0 }).Count
          (wrapInt (wrapInt ((fromBodyPagination req.Body { Page := 0, Count := 0 }).Page - 1) *
            (fromBodyPagination req.Body { Page := 0, Count := 0 }).Count))]) ∧
    (req.Body.page = none ∨ req.Body.count = none →
      (fromBodyPagination req.Body { Page := 0, Count := 0 }).Page ≤ 0 ∨
        (fromBodyPagination req.Body { Page := 0, Count := 0 }).Count ≤ 0) := by
  have hrej : (fromBodyPagination req.Body { Page := 0, Count := 0 }).Page ≤ 0 ∨
      (fromBodyPagination req.Body { Page := 0, Count := 0 }).Count ≤ 0 →
      Handler.GetEmployeesBatch env db ResponseWriter.fresh req =
        (.ret (), respond 400 [.errObj "page and count fields are required and must be > 0"],
          db) := by
    intro hbad
    have hbad2 : (fromBodyPagination req.Body { Page := 0, Count := 0 }).Count ≤ 0 ∨
        (fromBodyPagination req.Body { Page := 0, Count := 0 }).Page ≤ 0 := hbad.symm
    unfold Handler.GetEmployeesBatch
    simp only [hm, hbad2, if_true, if_false, bne_self_eq_false, Bool.false_eq_true]
    rw [returnErr_fresh]
    rfl
  have hcode : 0 < (fromBodyPagination req.Body { Page := 0, Count := 0 }).Page →
      0 < (fromBodyPagination req.Body { Page := 0, Count := 0 }).Count →
      (Handler.GetEmployeesBatch env db ResponseWriter.fresh req).2.1.code ≠ 400 ∧
      (Handler.GetEmployeesBatch env db ResponseWriter.fresh req).2.2 =
        (GetEmployeesBatch env db (fromBodyPagination req.Body { Page := 0, Count := 0 })).2 := by
    intro hp hc
    rw [getBatch_handler_of_valid env db req hm hp hc]
    cases hb : GetEmployeesBatch env db (fromBodyPagination req.Body { Page := 0, Count := 0 }) with
    | mk out db1 =>
      cases out with
      | panic m => simp [setHeader, ResponseWriter.fresh, ResponseWriter.code]
      | ret res =>
        obtain ⟨emps, err⟩ := res
        cases err with
        | some e => simp [respond, ResponseWriter.code]
        | none =>
          simp only
          cases jsonMarshal env (.employees emps) <;> simp [respond, ResponseWriter.code]
  refine ⟨hrej, ⟨?_, ?_⟩, ?_, ?_⟩
  · intro h400
    by_contra hgood
    have hp : 0 < (fromBodyPagination req.Body { Page := 0, Count := 0 }).Page := by omega
    have hc : 0 < (fromBodyPagination req.Body { Page := 0, Count := 0 }).Count := by omega
    exact (hcode hp hc).1 h400
  · intro hbad
    rw [hrej hbad]
    rfl
  · rintro ⟨hp, hc⟩
    have h2 := (hcode hp hc).2
    refine ⟨h2, ?_⟩
    rw [h2, GetEmployeesBatch_store, Query_log]
  · intro hmiss
    rcases hmiss with h | h
    · left
      simp [fromBodyPagination, h]
    · right
      simp [fromBodyPagination, h]

/-- Witness of C5: a GET request whose body gives a page and no count is
rejected with 400 and the store is untouched. -/
theorem batch_handler_validation_witness :
    Handler.GetEmployeesBatch env64 threeRows ResponseWriter.fresh
        { Method := "GET", Body := { Body.empty with page := some 1 } } =
      (.ret (), respond 400 [.errObj "page and count fields are required and must be > 0"],
        threeRows) :=
  (batch_handler_validation env64 threeRows
    { Method := "GET", Body := { Body.empty with page := some 1 } } rfl).1 (Or.inr (by decide))

/-- C6 as stated fails: with the connection failing the query, the Get handler
answers status 500, not 400, and its body is the marshalled error value, not
the payload holding the message under `Err`; that 500 does not come from
encoding a successful result. -/
theorem read_failure_answers_500 :
    (GetEmployee lockedRows 1).1 = (none, some errLocked) ∧
    (Handler.GetEmployee env64 lockedRows ResponseWriter.fresh
      { Method := "GET", Body := { Body.empty with id := some 1 } }).2.1 =
        respond 500 [.raw "\x7b\"Code\":5,\"ExtendedCode\":5,\"SystemErrno\":0\x7d"] ∧
    (Handler.GetEmployee env64 lockedRows ResponseWriter.fresh
      { Method := "GET", Body := { Body.empty with id := some 1 } }).2.1.code ≠ 400 ∧
    (Handler.GetEmployee env64 lockedRows ResponseWriter.fresh
      { Method := "GET", Body := { Body.empty with id := some 1 } }).2.1.body ≠
        [.errObj errLocked.msg] := by
  refine ⟨rfl, rfl, ?_, ?_⟩
  · have h : (Handler.GetEmployee env64 lockedRows ResponseWriter.fresh
        { Method := "GET", Body := { Body.empty with id := some 1 } }).2.1.code = 500 := rfl
    rw [h]
    decide
  · have h : (Handler.GetEmployee env64 lockedRows ResponseWriter.fresh
        { Method := "GET", Body := { Body.empty with id := some 1 } }).2.1.body =
        [.raw "\x7b\"Code\":5,\"ExtendedCode\":5,\"SystemErrno\":0\x7d"] := rfl
    rw [h]
    decide

/-- C6 amended: when the store write of a handler fails (`CreateEmmployee`,
`UpdateEmployee`, `DeleteEmployee`), the response has status 400 and the body
holding the store error message under `Err`.  When a store read run inside the
result callback fails (`GetEmployee` in the Get handler and in the re-fetch of
Create and Update, `GetEmployeesBatch` in the Get-batch handler), the response
has status 500 and the body is the marshalled error value.  Status 500 is
produced only by such a failed read or by a result that does not encode; the
Delete handler never produces it. -/
theorem store_failure_status (env : Env) (db : DB) (req : Request) :
    (req.Method = "POST" → ∀ i err db1,
      CreateEmmployee db (fromBodyEmployee req.Body Employee.zero) = ((i, some err), db1) →
      Handler.CreateEmployee env db ResponseWriter.fresh req =
        (.ret (), respond 400 [.errObj err.msg], db1)) ∧
    (req.Method = "PUT" → ∀ err db1,
      UpdateEmployee db (fromBodyEmployee req.Body Employee.zero) = (.ret (some err), db1) →
      Handler.UpdateEmployee env db ResponseWriter.fresh req =
        (.ret (), respond 400 [.errObj err.msg], db1)) ∧
    (req.Method = "DELETE" → ∀ err db1,
      DeleteEmployee db (fromBodyEmployee req.Body Employee.zero).Id = (some err, db1) →
      Handler.DeleteEmployee env db ResponseWriter.fresh req =
        (.ret (), respond 400 [.errObj err.msg], db1)) ∧
    (req.Method = "GET" → ∀ emp err db1,
      GetEmployee db (fromBodyEmployee req.Body Employee.zero).Id = ((emp, some err), db1) →
      Handler.GetEmployee env db ResponseWriter.fresh req =
        (.ret (), respond 500 (errorValueBody err), db1)) ∧
    (req.Method = "GET" →
      0 < (fromBodyPagination req.Body { Page := 0, Count := 0 }).Page →
      0 < (fromBodyPagination req.Body { Page := 0, Count := 0 }).Count →
      ∀ emps err db1,
      GetEmployeesBatch env db (fromBodyPagination req.Body { Page := 0, Count := 0 }) =
        (.ret (emps, some err), db1) →
      Handler.GetEmployeesBatch env db ResponseWriter.fresh req =
        (.ret (), respond 500 (errorValueBody err), db1)) ∧
    (req.Method = "POST" → ∀ i db1 emp err db2,
      CreateEmmployee db (fromBodyEmployee req.Body Employee.zero) = ((i, none), db1) →
      GetEmployee db1 i = ((emp, some err), db2) →
      Handler.CreateEmployee env db ResponseWriter.fresh req =
        (.ret (), respond 500 (errorValueBody err), db2)) ∧
    (req.Method = "PUT" → ∀ db1 emp err db2,
      UpdateEmployee db (fromBodyEmployee req.Body Employee.zero) = (.ret none, db1) →
      GetEmployee db1 (fromBodyEmployee req.Body Employee.zero).Id = ((emp, some err), db2) →
      Handler.UpdateEmployee env db ResponseWriter.fresh req =
        (.ret (), respond 500 (errorValueBody err), db2)) ∧
    ((Handler.GetEmployee env db ResponseWriter.fresh req).2.1.code = 500 →
      (GetEmployee db (fromBodyEmployee req.Body Employee.zero).Id).1.2 ≠ none ∨
      jsonMarshal env
        (.employee (GetEmployee db (fromBodyEmployee req.Body Employee.zero).Id).1.1) = none) ∧
    ((Handler.GetEmployeesBatch env db ResponseWriter.fresh req).2.1.code = 500 →
      ∃ emps err db1,
        GetEmployeesBatch env db (fromBodyPagination req.Body { Page := 0, Count := 0 }) =
          (.ret (emps, err), db1) ∧
        (err ≠ none ∨ jsonMarshal env (.employees emps) = none)) ∧
    ((Handler.CreateEmployee env db ResponseWriter.fresh req).2.1.code = 500 →
      ∃ i db1,
        CreateEmmployee db (fromBodyEmployee req.Body Employee.zero) = ((i, none), db1) ∧
        ((GetEmployee db1 i).1.2 ≠ none ∨
          jsonMarshal env (.employee (GetEmployee db1 i).1.1) = none)) ∧
    ((Handler.UpdateEmployee env db ResponseWriter.fresh req).2.1.code = 500 →
      ∃ db1,
        UpdateEmployee db (fromBodyEmployee req.Body Employee.zero) = (.ret none, db1) ∧
        ((GetEmployee db1 (fromBodyEmployee req.Body Employee.zero).Id).1.2 ≠ none ∨
          jsonMarshal env (.employee
            (GetEmployee db1 (fromBodyEmployee req.Body Employee.zero).Id).1.1) = none)) ∧
    (Handler.DeleteEmployee env db ResponseWriter.fresh req).2.1.code ≠ 500 := by
  refine ⟨?_, ?_, ?_, ?_, ?_, ?_, ?_, ?_, ?_, ?_, ?_, ?_⟩
  · intro hm i err db1 hc
    unfold Handler.CreateEmployee
    simp only [hm, hc, bne_self_eq_false, Bool.false_eq_true, if_false]
    exact returnErr_fresh env db1 err 400
  · intro hm err db1 hu
    unfold Handler.UpdateEmployee
    simp only [hm, hu, bne_self_eq_false, Bool.false_eq_true, if_false]
    exact returnErr_fresh env db1 err 400
  · intro hm err db1 hd
    unfold Handler.DeleteEmployee
    simp only [hm, hd, bne_self_eq_false, Bool.false_eq_true, if_false]
    exact returnErr_fresh env db1 err 400
  · intro hm emp err db1 hg
    unfold Handler.GetEmployee
    simp only [hm, bne_self_eq_false, Bool.false_eq_true, if_false]
    rw [returnEmployee_get, hg]
  · intro hm hp hc emps err db1 hb
    rw [getBatch_handler_of_valid env db req hm hp hc, hb]
  · intro hm i db1 emp err db2 hc hg
    unfold Handler.CreateEmployee
    simp only [hm, hc, bne_self_eq_false, Bool.false_eq_true, if_false]
    rw [returnEmployee_get, hg]
  · intro hm db1 emp err db2 hu hg
    unfold Handler.UpdateEmployee
    simp only [hm, hu, bne_self_eq_false, Bool.false_eq_true, if_false]
    rw [returnEmployee_get, hg]
  · intro h
    unfold Handler.GetEmployee at h
    split at h
    · simp [ResponseWriter.fresh, ResponseWriter.code] at h
    · exact returnEmployee_get_500 env db _ h
  · intro h
    unfold Handler.GetEmployeesBatch at h
    split at h
    · simp [ResponseWriter.fresh, ResponseWriter.code] at h
    · simp only at h
      split at h
      · rw [returnErr_fresh] at h
        simp [respond, ResponseWriter.code] at h
      · cases hb : GetEmployeesBatch env db
            (fromBodyPagination req.Body { Page := 0, Count := 0 }) with
        | mk out db1 =>
          cases out with
          | panic m =>
            simp only [returnEmployee, hb] at h
            simp [setHeader, ResponseWriter.fresh, ResponseWriter.code] at h
          | ret res =>
            obtain ⟨emps, err⟩ := res
            refine ⟨emps, err, db1, rfl, ?_⟩
            cases err with
            | some e => left; simp
            | none =>
              right
              rw [returnEmployee_fresh_ok env db db1 _ (.employees emps)
                (by simp only [hb])] at h
              cases hj : jsonMarshal env (.employees emps) with
              | none => rfl
              | some b =>
                rw [hj] at h
                simp [respond, ResponseWriter.code] at h
  · intro h
    unfold Handler.CreateEmployee at h
    split at h
    · simp [ResponseWriter.fresh, ResponseWriter.code] at h
    · simp only at h
      cases hc : CreateEmmployee db (fromBodyEmployee req.Body Employee.zero) with
      | mk res db1 =>
        obtain ⟨i, err⟩ := res
        rw [hc] at h
        cases err with
        | some e =>
          simp only [returnErr_fresh] at h
          simp [respond, ResponseWriter.code] at h
        | none => exact ⟨i, db1, rfl, returnEmployee_get_500 env db1 i h⟩
  · intro h
    unfold Handler.UpdateEmployee at h
    split at h
    · simp [ResponseWriter.fresh, ResponseWriter.code] at h
    · simp only at h
      cases hu : UpdateEmployee db (fromBodyEmployee req.Body Employee.zero) with
      | mk out db1 =>
        rw [hu] at h
        cases out with
        | panic m => simp [ResponseWriter.fresh, ResponseWriter.code] at h
        | ret err =>
          cases err with
          | some e =>
            simp only [returnErr_fresh] at h
            simp [respond, ResponseWriter.code] at h
          | none => exact ⟨db1, rfl, returnEmployee_get_500 env db1 _ h⟩
  · unfold Handler.DeleteEmployee
    split
    · simp [ResponseWriter.fresh, ResponseWriter.code]
    · simp only
      cases hd : DeleteEmployee db (fromBodyEmployee req.Body Employee.zero).Id with
      | mk err db1 =>
        cases err with
        | some e =>
          simp only [returnErr_fresh]
          simp [respond, ResponseWriter.code]
        | none =>
          simp only
          rw [returnEmployee_fresh_ok env db1 db1 _ .nil rfl]
          simp [jsonMarshal, respond, ResponseWriter.code]

/-- Witness of C6 amended: a DELETE request on the failing connection is
answered 400 with the store error message under `Err`. -/
theorem store_failure_status_witness :
    DeleteEmployee lockedRows 2 =
      (some errLocked, { threeRows with log := [.delete 2] }) ∧
    Handler.DeleteEmployee env64 lockedRows ResponseWriter.fresh
        { Method := "DELETE", Body := { Body.empty with id := some 2 } } =
      (.ret (), respond 400 [.errObj "database is locked"], { threeRows with log := [.delete 2] }) :=
  ⟨rfl, (store_failure_status env64 lockedRows
      { Method := "DELETE", Body := { Body.empty with id := some 2 } }).2.2.1 rfl errLocked
      { threeRows with log := [.delete 2] } rfl⟩

end EmployeeService
